import Mathlib

/-!
Verification of the kops infrastructure-provisioning code against its
natural-language specification.

The development shallowly embeds the relevant Go source:

* `pkg/model/iam` (in `src/pkg/model/awsmodel/network.go`, second file):
  the IAM `Policy` / `Statement` types, their custom JSON serialization
  (`Statement.MarshalJSON`, `Policy.AsJSON`), and the `PolicyResource`
  task resource (`GetDependencies`, `Open`).
* `pkg/model/awsmodel` (`NetworkModelBuilder.Build`): subnet-task
  construction and the per-zone private-network (NAT gateway / egress)
  logic.
* `upup/pkg/fi/cloudup/terraform` (`src/unnamed/part_000`):
  `TerraformTarget.ProcessDeletions` and `TerraformTarget.Finish`.
* `upup/pkg/fi/cloudup/gcetasks` (`src/unnamed/part_000`):
  the fitask-generated `ForwardingRule` lifecycle accessors.
* The task-graph Execution Planner, whose source is not in the excerpt;
  it is modelled from the specification (iterative topological layering).

Go machine details that matter are made explicit: maps iterated in a
fixed order are embedded as association lists (one iteration order),
pointer-typed optional fields become `Option`, fallible code returns
`Except String`, and byte slices become `String`.
-/

namespace Kops

/-! ### JSON encoding helpers (model of Go `encoding/json` output fragments)

`encoding/json` escapes `"` and `\`, control characters, and (by default)
the HTML characters `<`, `>`, `&` as `<`, `>`, `&`.
-/

/-- Hexadecimal digit for `\u00XX` escapes. -/
def hexDigit (n : Nat) : String :=
  if n = 0 then "0" else if n = 1 then "1" else if n = 2 then "2"
  else if n = 3 then "3" else if n = 4 then "4" else if n = 5 then "5"
  else if n = 6 then "6" else if n = 7 then "7" else if n = 8 then "8"
  else if n = 9 then "9" else if n = 10 then "a" else if n = 11 then "b"
  else if n = 12 then "c" else if n = 13 then "d" else if n = 14 then "e"
  else "f"

/-- Escaping of one character inside a JSON string literal, as done by
Go `encoding/json` with the default HTML escaping. -/
def escapeChar (c : Char) : String :=
  if c = '"' then "\\\""
  else if c = '\\' then "\\\\"
  else if c = '\n' then "\\n"
  else if c = '\r' then "\\r"
  else if c = '\t' then "\\t"
  else if c = '<' then "\\u003c"
  else if c = '>' then "\\u003e"
  else if c = '&' then "\\u0026"
  else if c.toNat < 32 then "\\u00" ++ hexDigit (c.toNat / 16) ++ hexDigit (c.toNat % 16)
  else String.singleton c

/-- JSON string literal for `s` (Go `json.Marshal` on a `string`). -/
def jsonString (s : String) : String :=
  "\"" ++ String.join (s.data.map escapeChar) ++ "\""

/-- Compact JSON array of strings (Go `json.Marshal` on a `[]string`). -/
def jsonStringArray (l : List String) : String :=
  "[" ++ String.intercalate "," (l.map jsonString) ++ "]"

/-- Insertion into a ≤-sorted list of strings (helper for the sorted
iteration order of Go maps under `json.Marshal` and for
`sets.String.List`). -/
def insertSorted (x : String) : List String → List String
  | [] => [x]
  | y :: ys => if x ≤ y then x :: y :: ys else y :: insertSorted x ys

/-- Sort a list of strings in increasing order. -/
def sortStrings (l : List String) : List String := l.foldr insertSorted []

/-! ### `k8s.io/apimachinery` `sets.String` (used by `Policy`)

A string set; `Insert` adds members, `List` returns the members sorted.
Embedded as a duplicate-free list in insertion order. -/

/-- Membership-checked insertion, modelling `sets.String.Insert` of one key. -/
def setInsert (s : List String) (v : String) : List String :=
  if s.contains v then s else s ++ [v]

/-- Insert many keys, modelling the variadic `sets.String.Insert`. -/
def setInsertAll (s : List String) (vs : List String) : List String :=
  vs.foldl setInsert s

/-- Sorted key list, modelling `sets.String.List()`. -/
def setList (s : List String) : List String := sortStrings s

/-! ### `pkg/util/stringorslice` (vendored helper used by `Statement`)

Not part of the source excerpt; embedded after its use sites in
`network.go`: a value that serializes as a single JSON string or as a
JSON array of strings.  `IsEmpty` is true exactly when the value list is
empty (the claims only depend on `IsEmpty` and on serialization being a
function of the value). -/

structure StringOrSlice where
  forceEncodeAsArray : Bool
  values : List String
deriving DecidableEq, Repr

namespace StringOrSlice

/-- Constructor `stringorslice.String`: a single string value. -/
def ofString (s : String) : StringOrSlice := ⟨false, [s]⟩

/-- Constructor `stringorslice.Slice`: always rendered as an array. -/
def slice (l : List String) : StringOrSlice := ⟨true, l⟩

/-- Constructor `stringorslice.Of` (variadic), same as `slice`. -/
def of (l : List String) : StringOrSlice := slice l

/-- Method `IsEmpty`: no values held. -/
def isEmpty (s : StringOrSlice) : Bool := s.values.isEmpty

/-- Method `MarshalJSON`: arrays when forced or multiple values, a plain
string for exactly one unforced value. -/
def marshal (s : StringOrSlice) : String :=
  if s.forceEncodeAsArray || s.values.length > 1 then jsonStringArray s.values
  else match s.values with
    | [x] => jsonString x
    | _ => "[]"

end StringOrSlice

/-! ### IAM policy data model (`pkg/model/iam/iam_builder.go`) -/

/-- Go `type StatementEffect string`; values `"Allow"` / `"Deny"`. -/
abbrev StatementEffect := String

/-- `StatementEffectAllow` -/
def statementEffectAllow : StatementEffect := "Allow"

/-- `StatementEffectDeny` -/
def statementEffectDeny : StatementEffect := "Deny"

/-- Values stored inside a `Condition` map: the source only ever stores
`map[string]string` and `map[string]interface{}` whose values are
strings or string lists, so a condition value is a map from keys to
either a string or a list of strings. -/
inductive CondPrim where
  | str : String → CondPrim
  | strList : List String → CondPrim
deriving DecidableEq, Repr

/-- One level of a condition: `map[string]string` or
`map[string]interface{}` (association list; `json.Marshal` sorts the
keys when serializing, see `marshalCondVal`). -/
abbrev CondVal := List (String × CondPrim)

/-- Go `type Condition map[string]interface{}` as used in this file:
keys such as `"StringEquals"` mapping to a key/value map. -/
abbrev Condition := List (String × CondVal)

/-- `json.Marshal` of a condition primitive. -/
def marshalCondPrim : CondPrim → String
  | .str s => jsonString s
  | .strList l => jsonStringArray l

/-- Look up a key in an association list (first match). -/
def alistLookup {β : Type} (l : List (String × β)) (k : String) : Option β :=
  match l.find? (fun p => p.1 == k) with
  | some p => some p.2
  | none => none

/-- `json.Marshal` of a string-keyed map renders the entries with the
keys in increasing order. -/
def marshalStringMap {β : Type} (render : β → String) (m : List (String × β)) : String :=
  "\x7b" ++ String.intercalate ","
    ((sortStrings (m.map Prod.fst)).filterMap fun k =>
      (alistLookup m k).map fun v => jsonString k ++ ":" ++ render v) ++ "\x7d"

/-- `json.Marshal` of one condition value (a string-keyed map). -/
def marshalCondVal (v : CondVal) : String := marshalStringMap marshalCondPrim v

/-- `json.Marshal` of a `Condition`. -/
def marshalCondition (c : Condition) : String := marshalStringMap marshalCondVal c

/-- Go struct `Principal` with `Federated` and `Service` fields, both
`json:",omitempty"`. -/
structure Principal where
  federated : String
  service : String
deriving DecidableEq, Repr

namespace Principal

/-- The zero `Principal{}`. -/
def empty : Principal := ⟨"", ""⟩

/-- Method `IsEmpty`: equality with the zero value. -/
def isEmpty (p : Principal) : Bool := p == empty

/-- `json.Marshal` of a `Principal`: struct-order fields, each omitted
when empty. -/
def marshal (p : Principal) : String :=
  "\x7b" ++ String.intercalate ","
    ((if p.federated = "" then [] else [jsonString "Federated" ++ ":" ++ jsonString p.federated]) ++
     (if p.service = "" then [] else [jsonString "Service" ++ ":" ++ jsonString p.service])) ++ "\x7d"

end Principal

/-- Go struct `Statement`: one AWS IAM policy statement. -/
structure Statement where
  effect : StatementEffect
  principal : Principal
  action : StringOrSlice
  resource : StringOrSlice
  condition : Condition
deriving DecidableEq, Repr

namespace Statement

/-- The field name / rendered value pairs emitted by
`Statement.MarshalJSON`, in emission order.  The source emits them
through a sequential `jsonWriter`; its comma discipline (trailing commas
after `Action` and `Condition`, leading commas before `Principal` and
`Resource`, `Effect` always present in the middle) makes the output
exactly the comma-separated join of these fields. -/
def marshalFields (s : Statement) : List (String × String) :=
  (if !s.action.isEmpty then [("Action", s.action.marshal)] else []) ++
  (if s.condition.length != 0 then [("Condition", marshalCondition s.condition)] else []) ++
  [("Effect", jsonString s.effect)] ++
  (if !s.principal.isEmpty then [("Principal", s.principal.marshal)] else []) ++
  (if !s.resource.isEmpty then [("Resource", s.resource.marshal)] else [])

/-- Method `MarshalJSON`: the object written by the `jsonWriter` calls
(`jw.Field` writes the quoted name followed by a colon and one space). -/
def marshalJSON (s : Statement) : String :=
  "\x7b" ++ String.intercalate ","
    ((marshalFields s).map fun f => jsonString f.1 ++ ": " ++ f.2) ++ "\x7d"

end Statement

/-! ### Whitespace handling of `encoding/json` (`Compact` and `Indent`)

`json.Marshal` runs `compact` over the output of a custom
`MarshalJSON`, removing insignificant whitespace; `json.MarshalIndent`
then re-indents the whole document.  Both are embedded as character
scanners that respect string literals and escapes. -/

/-- Go `encoding/json` compaction: drop whitespace outside string
literals.  `inStr` is true inside a string literal and `esc` right
after a backslash there. -/
def jsonCompactAux : List Char → Bool → Bool → List Char
  | [], _, _ => []
  | c :: rest, true, true => c :: jsonCompactAux rest true false
  | c :: rest, true, false =>
    if c = '"' then c :: jsonCompactAux rest false false
    else if c = '\\' then c :: jsonCompactAux rest true true
    else c :: jsonCompactAux rest true false
  | c :: rest, false, _ =>
    if c = ' ' || c = '\n' || c = '\t' || c = '\r' then jsonCompactAux rest false false
    else if c = '"' then c :: jsonCompactAux rest true false
    else c :: jsonCompactAux rest false false

/-- Compact form of a JSON document. -/
def jsonCompact (s : String) : String := ⟨jsonCompactAux s.data false false⟩

/-- A newline followed by the indentation for depth `d` (indent step
two spaces, empty prefix, as in `json.MarshalIndent(v, "", "  ")`). -/
def newlineIndent (d : Nat) : List Char := '\n' :: List.replicate (2 * d) ' '

/-- Go `json.Indent` on an already-compact document: newline-and-indent
after every opening bracket and comma and before every closing bracket,
except that empty objects and arrays stay on one line; a space after
each colon.  String literals are copied verbatim. -/
def jsonIndentAux : List Char → Nat → Bool → Bool → List Char
  | [], _, _, _ => []
  | c :: rest, depth, true, true => c :: jsonIndentAux rest depth true false
  | c :: rest, depth, true, false =>
    if c = '"' then c :: jsonIndentAux rest depth false false
    else if c = '\\' then c :: jsonIndentAux rest depth true true
    else c :: jsonIndentAux rest depth true false
  | '\x7b' :: '\x7d' :: rest, depth, false, _ =>
    '\x7b' :: '\x7d' :: jsonIndentAux rest depth false false
  | '[' :: ']' :: rest, depth, false, _ =>
    '[' :: ']' :: jsonIndentAux rest depth false false
  | c :: rest, depth, false, _ =>
    if c = '\x7b' || c = '[' then
      c :: (newlineIndent (depth + 1) ++ jsonIndentAux rest (depth + 1) false false)
    else if c = '\x7d' || c = ']' then
      newlineIndent (depth - 1) ++ c :: jsonIndentAux rest (depth - 1) false false
    else if c = ',' then
      c :: (newlineIndent depth ++ jsonIndentAux rest depth false false)
    else if c = ':' then
      c :: ' ' :: jsonIndentAux rest depth false false
    else if c = '"' then
      c :: jsonIndentAux rest depth true false
    else c :: jsonIndentAux rest depth false false

/-- `json.Indent` with empty prefix and two-space indent, on a compact
document. -/
def jsonIndent (s : String) : String := ⟨jsonIndentAux s.data 0 false false⟩

/-! ### The `Policy` document and `AsJSON` -/

/-- Go struct `Policy`: lower-case fields are unexported (invisible to
`json.Marshal`); `Statement` and `Version` are the exported, serialized
fields.  Statements are held behind pointers in Go; the embedding holds
the values. -/
structure Policy where
  clusterName : String
  unconditionalAction : List String
  clusterTaggedAction : List String
  Statement : List Kops.Statement
  Version : String
deriving DecidableEq, Repr

/-- `PolicyDefaultVersion` -/
def policyDefaultVersion : String := "2012-10-17"

/-- `NewPolicy`: fresh policy with empty action sets and no statements. -/
def newPolicy (clusterName : String) : Policy :=
  { clusterName := clusterName
    unconditionalAction := []
    clusterTaggedAction := []
    Statement := []
    Version := policyDefaultVersion }

/-- Compact `json.Marshal` of a `[]*Statement` field.  `NewPolicy`
leaves the slice nil, which Go serializes as `null`; a non-empty slice
is an array of the statements' custom `MarshalJSON` outputs, each
compacted. -/
def marshalStatementList (l : List Statement) : String :=
  match l with
  | [] => "null"
  | _ => "[" ++ String.intercalate "," (l.map fun s => jsonCompact s.marshalJSON) ++ "]"

/-- Compact `json.Marshal` of a `Policy`: the exported fields in struct
order (`Statement`, then `Version`). -/
def marshalPolicyCompact (p : Policy) : String :=
  "\x7b" ++ jsonString "Statement" ++ ":" ++ marshalStatementList p.Statement ++
  "," ++ jsonString "Version" ++ ":" ++ jsonString p.Version ++ "\x7d"

/-- `json.MarshalIndent(p, "", "  ")`: marshal, then indent. -/
def marshalPolicyIndent (p : Policy) : String := jsonIndent (marshalPolicyCompact p)

/-- The statement appended by `AsJSON` for the pending unconditional
actions. -/
def unconditionalStatement (p : Policy) : Statement :=
  { effect := statementEffectAllow
    principal := Principal.empty
    action := StringOrSlice.of (setList p.unconditionalAction)
    resource := StringOrSlice.ofString "*"
    condition := [] }

/-- The statement appended by `AsJSON` for the pending cluster-tagged
actions. -/
def clusterTaggedStatement (p : Policy) : Statement :=
  { effect := statementEffectAllow
    principal := Principal.empty
    action := StringOrSlice.of (setList p.clusterTaggedAction)
    resource := StringOrSlice.ofString "*"
    condition :=
      [("StringEquals", [("aws:ResourceTag/KubernetesCluster", .str p.clusterName)])] }

/-- Method `Policy.AsJSON`: first appends a statement for each
non-empty pending action set (mutating the receiver through its
pointer), then serializes with `json.MarshalIndent`.  The embedding
returns the mutated policy together with the produced string. -/
def Policy.asJSON (p : Policy) : Policy × String :=
  let p1 :=
    if p.unconditionalAction.length > 0 then
      { p with Statement := p.Statement ++ [unconditionalStatement p] }
    else p
  let p2 :=
    if p1.clusterTaggedAction.length > 0 then
      { p1 with Statement := p1.Statement ++ [clusterTaggedStatement p1] }
    else p1
  (p2, marshalPolicyIndent p2)

/-- `NodeRoleBastion.BuildAWSPolicy`: a fresh policy whose only grant is
the unconditional `ec2:DescribeRegions` action. -/
def nodeRoleBastionBuildAWSPolicy (clusterName : String) : Policy :=
  let p := newPolicy clusterName
  { p with unconditionalAction := setInsert p.unconditionalAction "ec2:DescribeRegions" }

/-! ### `PolicyResource` (`GetDependencies` / `Open`) -/

/-- `awstasks.DNSZone` (defined outside the excerpt): only the fields
`PolicyResource` reads are embedded — the task name and the
cloud-assigned `ZoneID`, both `*string`. -/
structure DNSZone where
  name : Option String
  zoneID : Option String
deriving DecidableEq, Repr

/-- An `fi.Task` as far as `PolicyResource.GetDependencies` can return
one: the linked `DNSZone` task. -/
inductive FiTask where
  | dnsZone : DNSZone → FiTask
deriving DecidableEq, Repr

/-- `fi.StringValue`: dereference a `*string`, empty string for nil. -/
def stringValue : Option String → String
  | some s => s
  | none => ""

/-- Go struct `PolicyBuilder` (exported fields; the `Cluster` spec and
the dynamically-dispatched `Role` are abstracted away: the role's
`BuildAWSPolicy` is passed to `openResource` as a function). -/
structure PolicyBuilder where
  hostedZoneID : String
  kmsKeys : List String
  region : String
  resourceARN : Option String
  useServiceAccountIAM : Bool
deriving DecidableEq, Repr

/-- Go struct `PolicyResource`: the builder plus an optional link to the
`DNSZone` task. -/
structure PolicyResource where
  builder : PolicyBuilder
  dnsZone : Option DNSZone
deriving DecidableEq, Repr

namespace PolicyResource

/-- Method `GetDependencies`: the `tasks` map argument is ignored; the
`DNSZone` link is appended when present. -/
def getDependencies (b : PolicyResource) (tasks : List (String × FiTask)) : List FiTask :=
  match b.dnsZone with
  | some z => [FiTask.dnsZone z]
  | none => []

/-- The tail of method `Open` after the zone check: `pb.BuildAWSPolicy()`
(rendered here as the `build` parameter, the dynamic role dispatch),
error wrapping, the empty reader for a nil policy, and `policy.AsJSON()`.
The produced reader contents are returned as a string. -/
def openRest (build : PolicyBuilder → Except String (Option Policy))
    (pb : PolicyBuilder) : Except String String :=
  match build pb with
  | .error e => .error ("error building IAM policy: " ++ e)
  | .ok none => .ok ""
  | .ok (some policy) => .ok policy.asJSON.2

/-- Method `Open` (named `openResource` because `open` is reserved in
Lean): defensively copies the builder, then — when a `DNSZone` task is
linked — dereferences its `ZoneID`; an unset ID is an error, a set one
is copied into the builder's `HostedZoneID` before building. -/
def openResource (build : PolicyBuilder → Except String (Option Policy))
    (b : PolicyResource) : Except String String :=
  let pb := b.builder
  match b.dnsZone with
  | some z =>
    let hostedZoneID := stringValue z.zoneID
    if hostedZoneID = "" then .error "DNS ZoneID not set"
    else openRest build { pb with hostedZoneID := hostedZoneID }
  | none => openRest build pb

end PolicyResource

/-! ### `NetworkModelBuilder.Build`: subnets and per-zone private networking -/

/-- `fi.Lifecycle` is defined outside the excerpt; modelled from the
spec: one of ExistsAndManaged, ExistsAndWarnIfChanges,
ExistsAndWarnIfInsufficientAccess, WarnIfInsufficientAccess. -/
inductive Lifecycle where
  | existsAndManaged
  | existsAndWarnIfChanges
  | existsAndWarnIfInsufficientAccess
  | warnIfInsufficientAccess
deriving DecidableEq, Repr

/-- `kops.SubnetTypePublic` (the `kops` API constants are defined
outside the excerpt; their string values are fixed by the API). -/
def subnetTypePublic : String := "Public"

/-- `kops.SubnetTypePrivate` -/
def subnetTypePrivate : String := "Private"

/-- `kops.SubnetTypeUtility` -/
def subnetTypeUtility : String := "Utility"

/-- `kops.EgressExternal`; its value `"External"` is also compared
literally in `NetworkModelBuilder.Build`. -/
def egressExternal : String := "External"

/-- `kops.TopologyPublic` -/
def topologyPublic : String := "public"

/-- `aws.TagNameSubnetPublicELB` (from `legacy-cloud-providers/aws`). -/
def tagNameSubnetPublicELB : String := "kubernetes.io/role/elb"

/-- `aws.TagNameSubnetInternalELB` -/
def tagNameSubnetInternalELB : String := "kubernetes.io/role/internal-elb"

/-- `kops.ClusterSubnetSpec` (fields used by the network builder). -/
structure ClusterSubnetSpec where
  name : String
  cidr : String
  ipv6CIDR : String
  zone : String
  providerID : String
  egress : String
  publicIP : String
  type : String
deriving DecidableEq, Repr

/-- `isUnmanaged` (`network.go`): external egress means the subnet's
networking is not managed by kops. -/
def isUnmanaged (subnet : ClusterSubnetSpec) : Bool := subnet.egress == egressExternal

/-- `awstasks.Subnet` as populated by `NetworkModelBuilder.Build`
(pointer fields as `Option`; the `VPC` link is constant and elided; the
`AmazonIPv6CIDR` link presence is recorded as a flag). -/
structure SubnetTask where
  name : Option String
  shortName : Option String
  lifecycle : Lifecycle
  availabilityZone : Option String
  cidr : Option String
  shared : Option Bool
  id : Option String
  ipv6CIDR : Option String
  amazonIPv6CIDRLinked : Bool
  tags : List (String × String)
deriving DecidableEq, Repr

/-- The tag map computed for one subnet (`network.go` lines 215-241):
empty when `DisableSubnetTags`; otherwise the cluster cloud tags (the
external `b.CloudTags` is a parameter) plus `SubnetType` and the
ELB-role tags selected by the subnet type. -/
def subnetTags (disableSubnetTags : Bool)
    (cloudTags : String → Bool → List (String × String))
    (topologyNodes : String) (subnetName : String) (sharedSubnet : Bool)
    (subnetSpec : ClusterSubnetSpec) : List (String × String) :=
  if disableSubnetTags then []
  else
    let tags := cloudTags subnetName sharedSubnet ++ [("SubnetType", subnetSpec.type)]
    if subnetSpec.type = subnetTypePublic || subnetSpec.type = subnetTypeUtility then
      tags ++ [(tagNameSubnetPublicELB, "1")] ++
        (if topologyNodes = topologyPublic then [(tagNameSubnetInternalELB, "1")] else [])
    else if subnetSpec.type = subnetTypePrivate then
      tags ++ [(tagNameSubnetInternalELB, "1")]
    else tags

/-- The `awstasks.Subnet` task created for one subnet spec
(`network.go` lines 211-263): a subnet with a non-empty `ProviderID` is
pre-existing, so the task is marked `Shared` and its `ID` is the
externally supplied provider ID. -/
def buildSubnetTask (clusterName : String) (lifecycle : Lifecycle) (sharedVPC : Bool)
    (disableSubnetTags : Bool) (cloudTags : String → Bool → List (String × String))
    (topologyNodes : String) (subnetSpec : ClusterSubnetSpec) : SubnetTask :=
  let sharedSubnet : Bool := subnetSpec.providerID != ""
  let subnetName := subnetSpec.name ++ "." ++ clusterName
  { name := some subnetName
    shortName := some subnetSpec.name
    lifecycle := lifecycle
    availabilityZone := some subnetSpec.zone
    cidr := some subnetSpec.cidr
    shared := some sharedSubnet
    id := if subnetSpec.providerID != "" then some subnetSpec.providerID else none
    ipv6CIDR := if subnetSpec.ipv6CIDR != "" then some subnetSpec.ipv6CIDR else none
    amazonIPv6CIDRLinked := subnetSpec.ipv6CIDR != "" && !sharedVPC
    tags := subnetTags disableSubnetTags cloudTags topologyNodes subnetName sharedSubnet subnetSpec }

/-- Tasks created by the per-zone private-network loop (fields that the
loop actually sets; task links are recorded as flags). -/
inductive ZoneTask where
  | natGateway (name : String) (id : Option String) (shared : Bool) (elasticIPLinked : Bool)
  | elasticIP (name : String) (id : Option String) (shared : Bool) (publicIP : Option String)
  | instance (name : String) (id : String) (shared : Bool)
  | routeTable (name : String) (shared : Bool)
  | route (name : String) (cidr : String) (viaInstance : Bool) (viaNatGateway : Bool)
      (transitGatewayID : Option String)
deriving DecidableEq, Repr

/-- `infoByZone[zone].PrivateSubnets` (`network.go` lines 276-295): the
private-type subnets of the zone that are neither shared
(`ProviderID` set) nor unmanaged, in spec order. -/
def privateSubnetsInZone (subnets : List ClusterSubnetSpec) (zone : String) :
    List ClusterSubnetSpec :=
  subnets.filter fun s =>
    s.type == subnetTypePrivate && s.zone == zone && s.providerID == "" && !isUnmanaged s

/-- `allSubnetsSharedInZone[zone]` (`network.go` lines 141-153): true
when every subnet of the zone has a `ProviderID`. -/
def allSubnetsSharedInZone (subnets : List ClusterSubnetSpec) (zone : String) : Bool :=
  (subnets.filter fun s => s.zone == zone).all fun s => s.providerID != ""

/-- `b.NamePrivateRouteTableInZone` (external context helper). -/
def namePrivateRouteTableInZone (clusterName zone : String) : String :=
  "private-" ++ zone ++ "." ++ clusterName

/-- The mixed-value guard (`network.go` lines 326-334): every private
subnet of the zone must repeat the first subnet's `Egress` and
`PublicIP`. -/
def checkMixedValues (egress publicIP : String) : List ClusterSubnetSpec → Except String Unit
  | [] => .ok ()
  | s :: rest =>
    if s.egress ≠ egress then .error "cannot mix egress values in private subnets"
    else if s.publicIP ≠ publicIP then .error "cannot mix publicIP values in private subnets"
    else checkMixedValues egress publicIP rest

/-- Result of the egress dispatch (`network.go` lines 336-433): the
tasks created for the zone's egress, and which of the local variables
`ngw` / `in` / `tgwID` were populated (they select the private route's
target). -/
structure EgressResult where
  tasks : List ZoneTask
  ngw : Bool
  inst : Bool
  tgwID : Option String
deriving DecidableEq, Repr

/-- The egress dispatch of the per-zone loop: a specified egress id is
re-used (`nat-`, `eipalloc-`, `i-`, `tgw-`, `External`), any other value
is an error; with no egress specified an owned elastic IP and NAT
gateway are created. -/
def buildZoneEgress (clusterName zone egress publicIP : String) :
    Except String EgressResult :=
  let taskName := zone ++ "." ++ clusterName
  if egress ≠ "" then
    if egress.startsWith "nat-" then
      .ok { tasks := [.natGateway taskName (some egress) true false]
            ngw := true, inst := false, tgwID := none }
    else if egress.startsWith "eipalloc-" then
      .ok { tasks := [.elasticIP taskName (some egress) true none,
                      .natGateway taskName none false true]
            ngw := true, inst := false, tgwID := none }
    else if egress.startsWith "i-" then
      .ok { tasks := [.instance egress egress true]
            ngw := false, inst := true, tgwID := none }
    else if egress.startsWith "tgw-" then
      .ok { tasks := [], ngw := false, inst := false, tgwID := some egress }
    else if egress = egressExternal then
      .ok { tasks := [], ngw := false, inst := false, tgwID := none }
    else
      .error "kops currently only supports re-use of either NAT EC2 Instances or NAT Gateways. We will support more eventually! Please see https://github.com/kubernetes/kops/issues/1530"
  else
    .ok { tasks := [.elasticIP taskName none false
                      (if publicIP ≠ "" then some publicIP else none),
                    .natGateway taskName none false true]
          ngw := true, inst := false, tgwID := none }

/-- One iteration of the per-zone loop (`network.go` lines 302-482).
`utilitySubnet` is the result of the external
`b.LinkToUtilitySubnetInZone(zone)` lookup.  On success the value is the
list of tasks added for the zone (NAT gateway / elastic IP / instance,
then the private route table and the private route); an error aborts
the whole `Build` with no task added for the zone. -/
def buildPrivateZone (clusterName zone : String) (subnets : List ClusterSubnetSpec)
    (utilitySubnet : Except String Unit) : Except String (List ZoneTask) :=
  match privateSubnetsInZone subnets zone with
  | [] => .ok []
  | first :: rest =>
    match utilitySubnet with
    | .error e => .error e
    | .ok _ =>
      let priv := first :: rest
      let egress := first.egress
      let publicIP := first.publicIP
      if priv.all isUnmanaged then .ok []
      else
        match checkMixedValues egress publicIP priv with
        | .error e => .error e
        | .ok _ =>
          match buildZoneEgress clusterName zone egress publicIP with
          | .error e => .error e
          | .ok er =>
            let rtName := namePrivateRouteTableInZone clusterName zone
            let rt := ZoneTask.routeTable rtName (allSubnetsSharedInZone subnets zone)
            let routeName := "private-" ++ zone ++ "-0.0.0.0/0"
            let route :=
              if er.inst then ZoneTask.route routeName "0.0.0.0/0" true false none
              else ZoneTask.route routeName "0.0.0.0/0" false er.ngw er.tgwID
            .ok (er.tasks ++ [rt, route])

/-! ### `TerraformTarget` (`src/unnamed/part_000`) -/

/-- `TerraformTarget` state as `Finish` reads it: the accumulated
`Files` map (association list in one Go iteration order) and the
output directory. -/
structure TerraformTarget where
  files : List (String × String)
  outDir : String
deriving DecidableEq, Repr

/-- Go `path.Dir` on the clean paths produced here: everything before
the last slash, `"."` when there is none (the `Clean` normalization is
the identity on these inputs). -/
def pathDir (p : String) : String :=
  let parts := p.splitOn "/"
  if parts.length ≤ 1 then "." else String.intercalate "/" parts.dropLast

/-- Go `path.Join` of two elements on the clean paths produced here. -/
def pathJoin (a b : String) : String :=
  if a = "" then b else if b = "" then a else a ++ "/" ++ b

/-- Go `%q` on the path strings appearing in `Finish`'s error messages
(escaping of special characters elided: the identity on these paths). -/
def goQuote (s : String) : String := "\"" ++ s ++ "\""

/-- Method `ProcessDeletions`: Terraform tracks and performs deletions
itself, so the engine never does. -/
def TerraformTarget.processDeletions (_ : TerraformTarget) : Bool := false

/-- The write loop of `Finish` (`part_000` lines 145-157): join the
output directory with each relative path, create the directory, write
the file, and stop at the first failure.  The filesystem is abstracted
as the fallible `mkdirAll` / `writeFile` operations; on success the
model returns the performed writes in order. -/
def finishWriteFiles (mkdirAll : String → Except String Unit)
    (writeFile : String → String → Except String Unit) (outDir : String) :
    List (String × String) → Except String (List (String × String))
  | [] => .ok []
  | (relativePath, contents) :: rest =>
    let p := pathJoin outDir relativePath
    match mkdirAll (pathDir p) with
    | .error e =>
      .error ("error creating output directory " ++ goQuote (pathDir p) ++ ": " ++ e)
    | .ok _ =>
      match writeFile p contents with
      | .error e =>
        .error ("error writing terraform data to output file " ++ goQuote p ++ ": " ++ e)
      | .ok _ =>
        match finishWriteFiles mkdirAll writeFile outDir rest with
        | .error e => .error e
        | .ok l => .ok ((p, contents) :: l)

/-- Method `Finish`: render the terraform document (`finishJSON` or
`finishHCL2` by feature flag, abstracted as `render`), then write every
accumulated file; the first failing step aborts with its error. -/
def TerraformTarget.finish (render : Except String Unit)
    (mkdirAll : String → Except String Unit)
    (writeFile : String → String → Except String Unit)
    (t : TerraformTarget) : Except String (List (String × String)) :=
  match render with
  | .error e => .error e
  | .ok _ => finishWriteFiles mkdirAll writeFile t.outDir t.files

/-! ### `gcetasks.ForwardingRule` lifecycle accessors (`src/unnamed/part_000`) -/

/-- `gcetasks.ForwardingRule`: the fitask-generated accessors in the
excerpt read the `Lifecycle` and `Name` fields; the remaining resource
fields of the struct (defined outside the excerpt) are untouched by
them. -/
structure ForwardingRule where
  name : Option String
  lifecycle : Lifecycle
deriving DecidableEq, Repr

/-- Method `GetLifecycle`. -/
def ForwardingRule.getLifecycle (o : ForwardingRule) : Lifecycle := o.lifecycle

/-- Method `SetLifecycle`: assigns only the `Lifecycle` field. -/
def ForwardingRule.setLifecycle (o : ForwardingRule) (lifecycle : Lifecycle) : ForwardingRule :=
  { o with lifecycle := lifecycle }

/-- Method `GetName`. -/
def ForwardingRule.getName (o : ForwardingRule) : Option String := o.name

/-! ### Execution Planner

Modelled from the spec: the task-graph engine's Execution Planner is
not part of the source excerpt (only model builders and targets are).
Spec §4.2: "iterative topological layering (Kahn's algorithm variant) —
repeatedly collect the subset of not-yet-scheduled tasks with zero
remaining unscheduled dependencies; that subset is the next wave;
remove it and its outgoing edges and repeat", failing when no task is
ready while unscheduled tasks remain (a cycle).  Tasks are identified
by name; an edge `(a, b)` means `b` depends on `a` (`a` must render
first). -/

/-- The next wave: the not-yet-scheduled tasks with zero remaining
unscheduled dependencies. -/
def readySet (edges : List (String × String)) (remaining : List String) : List String :=
  remaining.filter fun t => decide (∀ e ∈ edges, e.2 = t → e.1 ∉ remaining)

/-- Remove the current wave from the unscheduled set. -/
def nextRemaining (edges : List (String × String)) (remaining : List String) : List String :=
  remaining.filter fun t => decide (t ∉ readySet edges remaining)

/-- The layering loop, with fuel bounding the number of waves (each
round schedules at least one task, so `remaining.length` rounds
suffice); `none` reports a cycle. -/
def wavesAux (edges : List (String × String)) : Nat → List String → Option (List (List String))
  | 0, remaining => if remaining.isEmpty then some [] else none
  | fuel + 1, remaining =>
    if remaining.isEmpty then some []
    else
      let ready := readySet edges remaining
      if ready.isEmpty then none
      else (wavesAux edges fuel (nextRemaining edges remaining)).map (ready :: ·)

/-- The Execution Planner: partition the task set into dependency-ordered
waves, `none` on a cycle. -/
def planWaves (edges : List (String × String)) (tasks : List String) :
    Option (List (List String)) :=
  wavesAux edges tasks.length tasks

/-- Acyclicity of the dependency edge set, stated through the standard
finite-graph characterization: a rank function that strictly increases
along every edge exists exactly when the graph has no cycle. -/
def Acyclic (edges : List (String × String)) : Prop :=
  ∃ r : String → Nat, ∀ e ∈ edges, r e.1 < r e.2

/-- Task `t` is a member of the wave at index `i`. -/
def inWaveAt (waves : List (List String)) (t : String) (i : Nat) : Prop :=
  ∃ w, waves[i]? = some w ∧ t ∈ w

/-!
## Theorems
-/

/-- C6: for every ForwardingRule task and every lifecycle value,
SetLifecycle followed by GetLifecycle returns exactly that value, and
SetLifecycle leaves every other field of the task (here: the name)
unchanged. -/
theorem forwardingRule_lifecycle_roundtrip (o : ForwardingRule) (lifecycle : Lifecycle) :
    (o.setLifecycle lifecycle).getLifecycle = lifecycle ∧
      (o.setLifecycle lifecycle).name = o.name :=
  ⟨rfl, rfl⟩

/-- C9: TerraformTarget.ProcessDeletions returns false for every state
of the target: the engine never processes deletions when rendering to
Terraform. -/
theorem terraformTarget_processDeletions_false (t : TerraformTarget) :
    t.processDeletions = false := rfl

/-- C10: Statement.MarshalJSON always emits the Effect field, and emits
Action, Condition, Principal and Resource exactly when each is
non-empty (empty values are omitted entirely). -/
theorem statement_marshalJSON_field_presence (s : Statement) :
    "Effect" ∈ s.marshalFields.map Prod.fst
    ∧ ("Action" ∈ s.marshalFields.map Prod.fst ↔ ¬s.action.isEmpty = true)
    ∧ ("Condition" ∈ s.marshalFields.map Prod.fst ↔ s.condition ≠ [])
    ∧ ("Principal" ∈ s.marshalFields.map Prod.fst ↔ ¬s.principal.isEmpty = true)
    ∧ ("Resource" ∈ s.marshalFields.map Prod.fst ↔ ¬s.resource.isEmpty = true) := by
  simp only [Statement.marshalFields]
  split_ifs with h1 h2 h3 h4 <;>
    simp_all [List.length_eq_zero]

/-- C2 counterexample: the Policy built for the bastion role (one
pending unconditional action) serializes differently on a second
AsJSON call on the same mutated Policy value — AsJSON appends the
pending-action statement again. -/
theorem asJSON_second_call_differs :
    ((nodeRoleBastionBuildAWSPolicy "minimal.example.com").asJSON.1.asJSON).2 ≠
      (nodeRoleBastionBuildAWSPolicy "minimal.example.com").asJSON.2 := by
  decide

/-- C2 (amended): AsJSON mutates its Policy by appending statements for
the pending action sets; when both pending sets are empty the Policy is
left unchanged and a second AsJSON call on the same Policy yields
exactly the first call's string (serialization is a pure function of
the policy state). -/
theorem asJSON_second_call_empty_pending (p : Policy)
    (h1 : p.unconditionalAction = []) (h2 : p.clusterTaggedAction = []) :
    p.asJSON.1 = p ∧ (p.asJSON.1.asJSON).2 = p.asJSON.2 := by
  have hfix : p.asJSON.1 = p := by
    simp [Policy.asJSON, h1, h2]
  exact ⟨hfix, by rw [hfix]⟩

/-- Witness for the amended C2 theorem at a freshly constructed
policy. -/
theorem asJSON_second_call_empty_pending_witness :
    (newPolicy "example").asJSON.1 = newPolicy "example" ∧
      ((newPolicy "example").asJSON.1.asJSON).2 = (newPolicy "example").asJSON.2 :=
  asJSON_second_call_empty_pending (newPolicy "example") rfl rfl

/-- C3: the dependencies PolicyResource.GetDependencies reports are
exactly the tasks referenced by the resource's typed link fields (the
optional DNSZone link), for any tasks map — no hand-maintained edge
list contributes. -/
theorem getDependencies_structural (b : PolicyResource)
    (tasks : List (String × FiTask)) (t : FiTask) :
    (t ∈ b.getDependencies tasks ↔ ∃ z, b.dnsZone = some z ∧ t = FiTask.dnsZone z)
    ∧ b.getDependencies tasks = b.getDependencies [] := by
  cases hz : b.dnsZone <;> simp [PolicyResource.getDependencies, hz]

/-- C4: dereferencing the DNSZone link before its ZoneID is populated
makes PolicyResource.Open fail with "DNS ZoneID not set" and produce no
policy document; once the zone task is done (ZoneID set to a non-empty
value) Open proceeds with that concrete value copied into the
builder. -/
theorem openResource_link_resolution
    (build : PolicyBuilder → Except String (Option Policy))
    (b : PolicyResource) (z : DNSZone) (hz : b.dnsZone = some z) :
    (stringValue z.zoneID = "" →
      PolicyResource.openResource build b = .error "DNS ZoneID not set")
    ∧ ∀ v, z.zoneID = some v → v ≠ "" →
      PolicyResource.openResource build b =
        PolicyResource.openRest build { b.builder with hostedZoneID := v } := by
  constructor
  · intro h
    simp [PolicyResource.openResource, hz, h]
  · intro v hv hne
    have hval : stringValue z.zoneID = v := by simp [stringValue, hv]
    simp [PolicyResource.openResource, hz, hval, hne]

/-- Witness for the C4 theorem: a resource whose linked zone has no
ZoneID errors; one whose zone has ZoneID "Z123" builds with the ID
copied in. -/
theorem openResource_link_resolution_witness :
    PolicyResource.openResource (fun _ => .ok none)
        { builder := { hostedZoneID := "", kmsKeys := [], region := "us-east-1",
                       resourceARN := none, useServiceAccountIAM := false },
          dnsZone := some { name := some "example.com", zoneID := none } } =
      .error "DNS ZoneID not set"
    ∧ PolicyResource.openResource (fun _ => .ok none)
        { builder := { hostedZoneID := "", kmsKeys := [], region := "us-east-1",
                       resourceARN := none, useServiceAccountIAM := false },
          dnsZone := some { name := some "example.com", zoneID := some "Z123" } } =
      PolicyResource.openRest (fun _ => .ok none)
        { hostedZoneID := "Z123", kmsKeys := [], region := "us-east-1",
          resourceARN := none, useServiceAccountIAM := false } :=
  ⟨(openResource_link_resolution (fun _ => .ok none) _
      { name := some "example.com", zoneID := none } rfl).1 rfl,
   (openResource_link_resolution (fun _ => .ok none) _
      { name := some "example.com", zoneID := some "Z123" } rfl).2 "Z123" rfl (by decide)⟩

/-- C5: a subnet spec with a non-empty ProviderID (an externally owned,
pre-existing subnet) yields a Subnet task marked Shared whose ID is
exactly the supplied provider ID. -/
theorem buildSubnetTask_shared_provider_id (clusterName : String) (lifecycle : Lifecycle)
    (sharedVPC disableSubnetTags : Bool)
    (cloudTags : String → Bool → List (String × String)) (topologyNodes : String)
    (subnetSpec : ClusterSubnetSpec) (h : subnetSpec.providerID ≠ "") :
    (buildSubnetTask clusterName lifecycle sharedVPC disableSubnetTags cloudTags
        topologyNodes subnetSpec).shared = some true
    ∧ (buildSubnetTask clusterName lifecycle sharedVPC disableSubnetTags cloudTags
        topologyNodes subnetSpec).id = some subnetSpec.providerID := by
  simp [buildSubnetTask, h]

/-- Witness for the C5 theorem at a concrete pre-existing subnet. -/
theorem buildSubnetTask_shared_provider_id_witness :
    (buildSubnetTask "k8s.example.com" Lifecycle.existsAndManaged false false
        (fun _ _ => []) "public"
        { name := "us-test-1a", cidr := "172.20.32.0/19", ipv6CIDR := "",
          zone := "us-test-1a", providerID := "subnet-12345678", egress := "",
          publicIP := "", type := "Public" }).shared = some true
    ∧ (buildSubnetTask "k8s.example.com" Lifecycle.existsAndManaged false false
        (fun _ _ => []) "public"
        { name := "us-test-1a", cidr := "172.20.32.0/19", ipv6CIDR := "",
          zone := "us-test-1a", providerID := "subnet-12345678", egress := "",
          publicIP := "", type := "Public" }).id = some "subnet-12345678" :=
  buildSubnetTask_shared_provider_id "k8s.example.com" Lifecycle.existsAndManaged
    false false (fun _ _ => []) "public" _ (by decide)

/-- The write loop of Finish succeeds exactly when every directory
creation and file write succeeds, and then performs exactly the writes
of the accumulated files at their joined paths, in order. -/
theorem finishWriteFiles_ok_iff (mk : String → Except String Unit)
    (wr : String → String → Except String Unit) (outDir : String)
    (files : List (String × String)) (l : List (String × String)) :
    finishWriteFiles mk wr outDir files = .ok l ↔
      ((∀ f ∈ files, mk (pathDir (pathJoin outDir f.1)) = .ok () ∧
          wr (pathJoin outDir f.1) f.2 = .ok ()) ∧
        l = files.map fun f => (pathJoin outDir f.1, f.2)) := by
  induction files generalizing l with
  | nil => simp [finishWriteFiles, eq_comm]
  | cons f rest ih =>
    obtain ⟨rel, c⟩ := f
    cases hmk : mk (pathDir (pathJoin outDir rel)) with
    | error e =>
      simp [finishWriteFiles, hmk]
    | ok u =>
      cases u
      cases hwr : wr (pathJoin outDir rel) c with
      | error e =>
        simp [finishWriteFiles, hmk, hwr]
      | ok v =>
        cases v
        cases hrec : finishWriteFiles mk wr outDir rest with
        | error e =>
          simp only [finishWriteFiles, hmk, hwr, hrec]
          constructor
          · intro h; exact absurd h (by simp)
          · rintro ⟨hall, hl⟩
            have h2 := (ih (rest.map fun f => (pathJoin outDir f.1, f.2))).mpr
              ⟨fun g hg => hall g (by simp [hg]), rfl⟩
            rw [hrec] at h2
            exact absurd h2 (by simp)
        | ok lrest =>
          simp only [finishWriteFiles, hmk, hwr, hrec]
          obtain ⟨hallrest, hlrest⟩ := (ih lrest).mp hrec
          constructor
          · intro h
            have hl : l = (pathJoin outDir rel, c) :: lrest := by
              cases h; rfl
            refine ⟨?_, ?_⟩
            · intro g hg
              rcases List.mem_cons.mp hg with hgf | hgr
              · subst hgf; exact ⟨hmk, hwr⟩
              · exact hallrest g hgr
            · simp [hl, hlrest]
          · rintro ⟨hall, hl⟩
            simp [hl, hlrest]

/-- C7: TerraformTarget.Finish succeeds exactly when the document
rendering and every directory creation and file write succeed, in which
case it writes every accumulated file to the join of the output
directory and the file's relative path; a rendering error is returned
as-is; and once one file fails, the error is fixed regardless of the
remaining files — they are not attempted. -/
theorem terraformTarget_finish_spec :
    (∀ (render : Except String Unit) mk wr (t : TerraformTarget) l,
      t.finish render mk wr = .ok l ↔
        (render = .ok () ∧
          (∀ f ∈ t.files, mk (pathDir (pathJoin t.outDir f.1)) = .ok () ∧
            wr (pathJoin t.outDir f.1) f.2 = .ok ()) ∧
          l = t.files.map fun f => (pathJoin t.outDir f.1, f.2)))
    ∧ (∀ (mk : String → Except String Unit) wr (t : TerraformTarget) e,
        t.finish (.error e) mk wr = .error e)
    ∧ (∀ (mk : String → Except String Unit) wr outDir pre rel c,
        (∀ g ∈ pre, mk (pathDir (pathJoin outDir g.1)) = .ok () ∧
          wr (pathJoin outDir g.1) g.2 = .ok ()) →
        (mk (pathDir (pathJoin outDir rel)) = .ok () →
          wr (pathJoin outDir rel) c ≠ .ok ()) →
        ∃ e, ∀ post, finishWriteFiles mk wr outDir (pre ++ (rel, c) :: post) = .error e) := by
  refine ⟨?_, ?_, ?_⟩
  · intro render mk wr t l
    cases render with
    | error e => simp [TerraformTarget.finish]
    | ok u =>
      cases u
      simpa [TerraformTarget.finish] using finishWriteFiles_ok_iff mk wr t.outDir t.files l
  · intro mk wr t e
    simp [TerraformTarget.finish]
  · intro mk wr outDir pre rel c hpre hfail
    induction pre with
    | nil =>
      cases hmk : mk (pathDir (pathJoin outDir rel)) with
      | error e =>
        exact ⟨"error creating output directory " ++ goQuote (pathDir (pathJoin outDir rel))
            ++ ": " ++ e, fun post => by simp [finishWriteFiles, hmk]⟩
      | ok u =>
        cases u
        cases hwr : wr (pathJoin outDir rel) c with
        | error e =>
          exact ⟨"error writing terraform data to output file "
              ++ goQuote (pathJoin outDir rel) ++ ": " ++ e,
            fun post => by simp [finishWriteFiles, hmk, hwr]⟩
        | ok v =>
          cases v
          exact absurd hwr (hfail hmk)
    | cons g pre ih =>
      obtain ⟨hgmk, hgwr⟩ := hpre g (List.mem_cons_self g pre)
      obtain ⟨e, he⟩ := ih fun g hg => hpre g (List.mem_cons_of_mem _ hg)
      refine ⟨e, fun post => ?_⟩
      obtain ⟨grel, gc⟩ := g
      simp only [List.cons_append, finishWriteFiles, hgmk, hgwr]
      rw [List.append_eq, he post]

/-- Witness for the C7 theorem: a target with one accumulated file and
an always-succeeding filesystem writes it at the joined path; a
failing write on the first of two files yields an error that does not
depend on the second file. -/
theorem terraformTarget_finish_spec_witness :
    ((TerraformTarget.finish (.ok ()) (fun _ => .ok ()) (fun _ _ => .ok ())
        { files := [("kubernetes.tf", "terraform " )], outDir := "out" }) =
      .ok [("out/kubernetes.tf", "terraform ")])
    ∧ ∃ e, ∀ post, finishWriteFiles (fun _ => .ok ()) (fun _ _ => .error "disk full") "out"
        ([] ++ ("kubernetes.tf", "terraform ") :: post) = .error e :=
  ⟨(terraformTarget_finish_spec.1 (.ok ()) (fun _ => .ok ()) (fun _ _ => .ok ())
      { files := [("kubernetes.tf", "terraform ")], outDir := "out" }
      [("out/kubernetes.tf", "terraform ")]).mpr
    ⟨rfl, by simp, by simp [pathJoin]⟩,
   terraformTarget_finish_spec.2.2 (fun _ => .ok ()) (fun _ _ => .error "disk full")
      "out" [] "kubernetes.tf" "terraform " (by simp) (by simp)⟩

/-- Subnets collected into a zone's PrivateSubnets list are never
unmanaged (the collecting loop filters them out). -/
theorem mem_privateSubnetsInZone_not_unmanaged (subnets : List ClusterSubnetSpec)
    (zone : String) (s : ClusterSubnetSpec) (h : s ∈ privateSubnetsInZone subnets zone) :
    isUnmanaged s = false := by
  rw [privateSubnetsInZone, List.mem_filter] at h
  have h2 := h.2
  simp only [Bool.and_eq_true, Bool.not_eq_true'] at h2
  exact h2.2

/-- The mixed-value guard fails, with one of its two messages, whenever
some subnet of the list disagrees with the expected egress or public
IP. -/
theorem checkMixedValues_error_of_mix (egress publicIP : String)
    (l : List ClusterSubnetSpec)
    (h : ∃ s ∈ l, s.egress ≠ egress ∨ s.publicIP ≠ publicIP) :
    checkMixedValues egress publicIP l = .error "cannot mix egress values in private subnets"
    ∨ checkMixedValues egress publicIP l =
        .error "cannot mix publicIP values in private subnets" := by
  induction l with
  | nil => simp at h
  | cons s rest ih =>
    by_cases h1 : s.egress = egress
    · by_cases h2 : s.publicIP = publicIP
      · obtain ⟨w, hw, hcase⟩ := h
        rcases List.mem_cons.mp hw with rfl | hwr
        · rcases hcase with hc | hc
          · exact absurd h1 hc
          · exact absurd h2 hc
        · have hrest := ih ⟨w, hwr, hcase⟩
          simpa [checkMixedValues, h1, h2] using hrest
      · right; simp [checkMixedValues, h1, h2]
    · left; simp [checkMixedValues, h1]

/-- C8: when a zone's managed private subnets disagree on Egress or on
PublicIP, the per-zone network build fails with one of the two
cannot-mix errors, and no NAT gateway, elastic IP, private route table
or private route task is produced for the zone. -/
theorem buildPrivateZone_mixed_values_error (clusterName zone : String)
    (subnets : List ClusterSubnetSpec) (first : ClusterSubnetSpec)
    (rest : List ClusterSubnetSpec)
    (hpriv : privateSubnetsInZone subnets zone = first :: rest)
    (hmix : ∃ s ∈ first :: rest, s.egress ≠ first.egress ∨ s.publicIP ≠ first.publicIP) :
    (buildPrivateZone clusterName zone subnets (.ok ()) =
        .error "cannot mix egress values in private subnets"
      ∨ buildPrivateZone clusterName zone subnets (.ok ()) =
        .error "cannot mix publicIP values in private subnets")
    ∧ ∀ tasks, buildPrivateZone clusterName zone subnets (.ok ()) ≠ .ok tasks := by
  have hfirstmem : first ∈ privateSubnetsInZone subnets zone := by
    rw [hpriv]; exact List.mem_cons_self first rest
  have hfm : isUnmanaged first = false :=
    mem_privateSubnetsInZone_not_unmanaged subnets zone first hfirstmem
  have hall : ((first :: rest).all isUnmanaged) = false := by simp [hfm]
  have hcheck := checkMixedValues_error_of_mix first.egress first.publicIP (first :: rest) hmix
  have herr : buildPrivateZone clusterName zone subnets (.ok ()) =
      .error "cannot mix egress values in private subnets"
      ∨ buildPrivateZone clusterName zone subnets (.ok ()) =
      .error "cannot mix publicIP values in private subnets" := by
    rcases hcheck with hc | hc
    · left; simp [buildPrivateZone, hpriv, hall, hc]
    · right; simp [buildPrivateZone, hpriv, hall, hc]
  refine ⟨herr, ?_⟩
  intro tasks hok
  rcases herr with hc | hc <;> rw [hc] at hok <;> exact absurd hok (by simp)

/-- Witness for the C8 theorem: two managed private subnets of the same
zone, one with no egress and one re-using a NAT gateway, make the zone
build fail. -/
theorem buildPrivateZone_mixed_values_error_witness :
    (buildPrivateZone "k8s.example.com" "us-test-1a"
        [{ name := "private-a", cidr := "10.0.1.0/24", ipv6CIDR := "",
           zone := "us-test-1a", providerID := "", egress := "",
           publicIP := "", type := "Private" },
         { name := "private-b", cidr := "10.0.2.0/24", ipv6CIDR := "",
           zone := "us-test-1a", providerID := "", egress := "nat-0a1b2c3d4e5f67890",
           publicIP := "", type := "Private" }] (.ok ()) =
        .error "cannot mix egress values in private subnets"
      ∨ buildPrivateZone "k8s.example.com" "us-test-1a"
        [{ name := "private-a", cidr := "10.0.1.0/24", ipv6CIDR := "",
           zone := "us-test-1a", providerID := "", egress := "",
           publicIP := "", type := "Private" },
         { name := "private-b", cidr := "10.0.2.0/24", ipv6CIDR := "",
           zone := "us-test-1a", providerID := "", egress := "nat-0a1b2c3d4e5f67890",
           publicIP := "", type := "Private" }] (.ok ()) =
        .error "cannot mix publicIP values in private subnets")
    ∧ ∀ tasks, buildPrivateZone "k8s.example.com" "us-test-1a"
        [{ name := "private-a", cidr := "10.0.1.0/24", ipv6CIDR := "",
           zone := "us-test-1a", providerID := "", egress := "",
           publicIP := "", type := "Private" },
         { name := "private-b", cidr := "10.0.2.0/24", ipv6CIDR := "",
           zone := "us-test-1a", providerID := "", egress := "nat-0a1b2c3d4e5f67890",
           publicIP := "", type := "Private" }] (.ok ()) ≠ .ok tasks :=
  buildPrivateZone_mixed_values_error "k8s.example.com" "us-test-1a"
    [{ name := "private-a", cidr := "10.0.1.0/24", ipv6CIDR := "",
       zone := "us-test-1a", providerID := "", egress := "",
       publicIP := "", type := "Private" },
     { name := "private-b", cidr := "10.0.2.0/24", ipv6CIDR := "",
       zone := "us-test-1a", providerID := "", egress := "nat-0a1b2c3d4e5f67890",
       publicIP := "", type := "Private" }]
    { name := "private-a", cidr := "10.0.1.0/24", ipv6CIDR := "",
      zone := "us-test-1a", providerID := "", egress := "",
      publicIP := "", type := "Private" }
    [{ name := "private-b", cidr := "10.0.2.0/24", ipv6CIDR := "",
       zone := "us-test-1a", providerID := "", egress := "nat-0a1b2c3d4e5f67890",
       publicIP := "", type := "Private" }]
    (by decide) (by decide)

/-- A nonempty list of tasks has a member of minimal rank. -/
theorem exists_rank_min (r : String → Nat) (l : List String) (hne : l ≠ []) :
    ∃ t ∈ l, ∀ u ∈ l, r t ≤ r u := by
  induction l with
  | nil => exact absurd rfl hne
  | cons x xs ih =>
    by_cases hxs : xs = []
    · subst hxs
      exact ⟨x, by simp, by simp⟩
    · obtain ⟨t, ht, hmin⟩ := ih hxs
      by_cases hcmp : r x ≤ r t
      · refine ⟨x, by simp, ?_⟩
        intro u hu
        rcases List.mem_cons.mp hu with rfl | hu2
        · exact le_refl _
        · exact le_trans hcmp (hmin u hu2)
      · refine ⟨t, List.mem_cons_of_mem _ ht, ?_⟩
        intro u hu
        rcases List.mem_cons.mp hu with rfl | hu2
        · exact le_of_not_le hcmp
        · exact hmin u hu2

/-- Membership in the ready set: an unscheduled task with no incoming
edge from another unscheduled task. -/
theorem mem_readySet (edges : List (String × String)) (remaining : List String)
    (t : String) :
    t ∈ readySet edges remaining ↔
      t ∈ remaining ∧ ∀ e ∈ edges, e.2 = t → e.1 ∉ remaining := by
  simp [readySet, List.mem_filter]

/-- On an acyclic edge set, some unscheduled task is always ready: one
of minimal rank has no unscheduled predecessor. -/
theorem readySet_ne_nil (edges : List (String × String)) (remaining : List String)
    (hne : remaining ≠ []) (hacyc : Acyclic edges) :
    readySet edges remaining ≠ [] := by
  obtain ⟨r, hr⟩ := hacyc
  obtain ⟨t, ht, hmin⟩ := exists_rank_min r remaining hne
  have hmem : t ∈ readySet edges remaining := by
    rw [mem_readySet]
    refine ⟨ht, ?_⟩
    intro e he het hmemp
    have h1 := hr e he
    rw [het] at h1
    exact absurd (hmin e.1 hmemp) (not_le_of_lt h1)
  intro hnil
  rw [hnil] at hmem
  exact absurd hmem (List.not_mem_nil t)

/-- Membership after removing the current wave. -/
theorem mem_nextRemaining (edges : List (String × String)) (remaining : List String)
    (t : String) :
    t ∈ nextRemaining edges remaining ↔
      t ∈ remaining ∧ t ∉ readySet edges remaining := by
  simp [nextRemaining, List.mem_filter]

/-- Each round schedules at least one task. -/
theorem nextRemaining_length_lt (edges : List (String × String)) (remaining : List String)
    (hne : remaining ≠ []) (hacyc : Acyclic edges) :
    (nextRemaining edges remaining).length < remaining.length := by
  rw [nextRemaining, List.length_filter_lt_length_iff_exists]
  obtain ⟨x, hx⟩ := List.exists_mem_of_ne_nil (readySet edges remaining)
    (readySet_ne_nil edges remaining hne hacyc)
  refine ⟨x, ((mem_readySet edges remaining x).mp hx).1, ?_⟩
  simp [hx]

/-- A task in no wave is counted zero times. -/
theorem countP_eq_zero_of_not_mem_flatten (t : String) (waves : List (List String))
    (h : t ∉ waves.flatten) : (waves.countP fun w => decide (t ∈ w)) = 0 := by
  rw [List.countP_eq_zero]
  intro w hw
  simp only [decide_eq_true_eq]
  intro htw
  exact h (List.mem_flatten.mpr ⟨w, hw, htw⟩)

/-- When the waves are globally duplicate-free, a scheduled task lies in
exactly one wave. -/
theorem countP_eq_one_of_nodup_flatten (t : String) (waves : List (List String))
    (hnd : waves.flatten.Nodup) (hmem : t ∈ waves.flatten) :
    (waves.countP fun w => decide (t ∈ w)) = 1 := by
  induction waves with
  | nil => simp at hmem
  | cons w ws ih =>
    rw [List.flatten_cons] at hmem hnd
    rw [List.nodup_append] at hnd
    obtain ⟨hw, hws, hdisj⟩ := hnd
    by_cases htw : t ∈ w
    · rw [List.countP_cons_of_pos _ _ (by simp [htw])]
      have hnot : t ∉ ws.flatten := fun hc => hdisj htw hc
      rw [countP_eq_zero_of_not_mem_flatten t ws hnot]
    · rw [List.countP_cons_of_neg _ _ (by simp [htw])]
      have hmem2 : t ∈ ws.flatten := by
        rcases List.mem_append.mp hmem with h | h
        · exact absurd h htw
        · exact h
      exact ih hws hmem2

/-- No wave membership in an empty wave list. -/
theorem inWaveAt_nil (t : String) (i : Nat) : ¬inWaveAt [] t i := by
  simp [inWaveAt]

/-- Wave membership at index zero is membership in the head wave. -/
theorem inWaveAt_cons_zero (w : List String) (ws : List (List String)) (t : String) :
    inWaveAt (w :: ws) t 0 ↔ t ∈ w := by
  simp [inWaveAt]

/-- Wave membership at a successor index looks in the tail. -/
theorem inWaveAt_cons_succ (w : List String) (ws : List (List String)) (t : String)
    (i : Nat) : inWaveAt (w :: ws) t (i + 1) ↔ inWaveAt ws t i := by
  simp [inWaveAt]

/-- A task in some wave is in the flattened schedule. -/
theorem inWaveAt_mem_flatten (waves : List (List String)) (t : String) (i : Nat)
    (h : inWaveAt waves t i) : t ∈ waves.flatten := by
  induction waves generalizing i with
  | nil => exact absurd h (inWaveAt_nil t i)
  | cons w ws ih =>
    cases i with
    | zero =>
      rw [inWaveAt_cons_zero] at h
      simp only [List.flatten_cons, List.mem_append]
      exact Or.inl h
    | succ i =>
      rw [inWaveAt_cons_succ] at h
      simp only [List.flatten_cons, List.mem_append]
      exact Or.inr (ih i h)

/-- Invariant of the layering loop: with enough fuel, on a
duplicate-free unscheduled set closed under edge targets, an acyclic
edge set yields waves that cover the unscheduled set exactly once and
respect every edge. -/
theorem wavesAux_spec (edges : List (String × String)) (hacyc : Acyclic edges) :
    ∀ fuel remaining, remaining.length ≤ fuel → remaining.Nodup →
      (∀ e ∈ edges, e.1 ∈ remaining → e.2 ∈ remaining) →
      ∃ waves, wavesAux edges fuel remaining = some waves ∧
        (∀ t, t ∈ waves.flatten ↔ t ∈ remaining) ∧
        waves.flatten.Nodup ∧
        ∀ e ∈ edges, ∀ i j, inWaveAt waves e.1 i → inWaveAt waves e.2 j → i < j := by
  intro fuel
  induction fuel with
  | zero =>
    intro remaining hlen hnd hclosed
    have hrem : remaining = [] := List.eq_nil_of_length_eq_zero (Nat.le_zero.mp hlen)
    subst hrem
    refine ⟨[], by simp [wavesAux], by simp, by simp, ?_⟩
    intro e he i j hi hj
    exact absurd hi (inWaveAt_nil e.1 i)
  | succ fuel ih =>
    intro remaining hlen hnd hclosed
    by_cases hrem : remaining = []
    · subst hrem
      refine ⟨[], by simp [wavesAux], by simp, by simp, ?_⟩
      intro e he i j hi hj
      exact absurd hi (inWaveAt_nil e.1 i)
    · have hready := readySet_ne_nil edges remaining hrem hacyc
      have hlen2 : (nextRemaining edges remaining).length ≤ fuel := by
        have := nextRemaining_length_lt edges remaining hrem hacyc
        omega
      have hnd2 : (nextRemaining edges remaining).Nodup := hnd.filter _
      have hclosed2 : ∀ e ∈ edges, e.1 ∈ nextRemaining edges remaining →
          e.2 ∈ nextRemaining edges remaining := by
        intro e he h1
        obtain ⟨h1rem, _⟩ := (mem_nextRemaining edges remaining e.1).mp h1
        have h2rem : e.2 ∈ remaining := hclosed e he h1rem
        have h2nr : e.2 ∉ readySet edges remaining := by
          intro hc
          exact ((mem_readySet edges remaining e.2).mp hc).2 e he rfl h1rem
        exact (mem_nextRemaining edges remaining e.2).mpr ⟨h2rem, h2nr⟩
      obtain ⟨waves2, heq2, hmem2, hnd3, hord2⟩ :=
        ih (nextRemaining edges remaining) hlen2 hnd2 hclosed2
      refine ⟨readySet edges remaining :: waves2, ?_, ?_, ?_, ?_⟩
      · simp only [wavesAux]
        rw [if_neg (by simpa [List.isEmpty_iff] using hrem),
          if_neg (by simpa [List.isEmpty_iff] using hready), heq2]
        rfl
      · intro t
        simp only [List.flatten_cons, List.mem_append, hmem2 t, mem_nextRemaining]
        constructor
        · rintro (h | h)
          · exact ((mem_readySet edges remaining t).mp h).1
          · exact h.1
        · intro ht
          by_cases hr : t ∈ readySet edges remaining
          · exact Or.inl hr
          · exact Or.inr ⟨ht, hr⟩
      · rw [List.flatten_cons, List.nodup_append]
        refine ⟨hnd.filter _, hnd3, ?_⟩
        intro a ha hc
        exact ((mem_nextRemaining edges remaining a).mp ((hmem2 a).mp hc)).2 ha
      · intro e he i j hi hj
        cases i with
        | zero =>
          rw [inWaveAt_cons_zero] at hi
          have h1rem : e.1 ∈ remaining := ((mem_readySet edges remaining e.1).mp hi).1
          have h2nr : e.2 ∉ readySet edges remaining := by
            intro hc
            exact ((mem_readySet edges remaining e.2).mp hc).2 e he rfl h1rem
          cases j with
          | zero =>
            rw [inWaveAt_cons_zero] at hj
            exact absurd hj h2nr
          | succ j => exact Nat.succ_pos j
        | succ i =>
          rw [inWaveAt_cons_succ] at hi
          have h1mem : e.1 ∈ nextRemaining edges remaining :=
            (hmem2 e.1).mp (inWaveAt_mem_flatten waves2 e.1 i hi)
          have h1rem : e.1 ∈ remaining :=
            ((mem_nextRemaining edges remaining e.1).mp h1mem).1
          have h2nr : e.2 ∉ readySet edges remaining := by
            intro hc
            exact ((mem_readySet edges remaining e.2).mp hc).2 e he rfl h1rem
          cases j with
          | zero =>
            rw [inWaveAt_cons_zero] at hj
            exact absurd hj h2nr
          | succ j =>
            rw [inWaveAt_cons_succ] at hj
            exact Nat.succ_lt_succ (hord2 e he i j hi hj)

/-- C1: for every acyclic Task Map (duplicate-free task names, edges
between tasks of the map), the Planner produces a wave sequence in
which every task appears in exactly one wave, every scheduled name is a
task of the map, and for every dependency edge the source's wave index
is strictly below the target's. -/
theorem execution_planner_waves (tasks : List String) (edges : List (String × String))
    (hnd : tasks.Nodup)
    (hend : ∀ e ∈ edges, e.1 ∈ tasks ∧ e.2 ∈ tasks)
    (hacyc : Acyclic edges) :
    ∃ waves, planWaves edges tasks = some waves
      ∧ (∀ t ∈ tasks, (waves.countP fun w => decide (t ∈ w)) = 1)
      ∧ (∀ w ∈ waves, ∀ t ∈ w, t ∈ tasks)
      ∧ ∀ e ∈ edges, ∀ i j, inWaveAt waves e.1 i → inWaveAt waves e.2 j → i < j := by
  obtain ⟨waves, heq, hmem, hndf, hord⟩ :=
    wavesAux_spec edges hacyc tasks.length tasks (le_refl _) hnd
      fun e he _ => (hend e he).2
  refine ⟨waves, heq, ?_, ?_, hord⟩
  · intro t ht
    exact countP_eq_one_of_nodup_flatten t waves hndf ((hmem t).mpr ht)
  · intro w hw t htw
    exact (hmem t).mp (List.mem_flatten.mpr ⟨w, hw, htw⟩)

/-- Witness for the C1 theorem: the spec's concrete scenario 1 —
Network, Subnet (links Network), Instance (links Subnet). -/
theorem execution_planner_waves_witness :
    ∃ waves, planWaves [("Network", "Subnet"), ("Subnet", "Instance")]
        ["Network", "Subnet", "Instance"] = some waves
      ∧ (∀ t ∈ ["Network", "Subnet", "Instance"],
          (waves.countP fun w => decide (t ∈ w)) = 1)
      ∧ (∀ w ∈ waves, ∀ t ∈ w, t ∈ ["Network", "Subnet", "Instance"])
      ∧ ∀ e ∈ [("Network", "Subnet"), ("Subnet", "Instance")],
          ∀ i j, inWaveAt waves e.1 i → inWaveAt waves e.2 j → i < j :=
  execution_planner_waves ["Network", "Subnet", "Instance"]
    [("Network", "Subnet"), ("Subnet", "Instance")]
    (by decide) (by decide)
    ⟨fun s => if s = "Network" then 0 else if s = "Subnet" then 1 else 2, by decide⟩

end Kops
